import Mathlib

/-!
Shallow embedding of the Hack assembler in `src/Assembler/Assembler.py`.

The embedding follows the Python source function by function.  Python
strings are Lean `String`s; the handful of Python string primitives the
assembler uses (`startswith`, slicing, `split`, membership, `int(...)`,
`str(...)`, `format(n, "b")`) are embedded as explicit structural
functions over `String.data` so that every closed computation reduces in
the kernel.  The Python dict of the symbol table is embedded as a
function `String → Option Int` (`None`/`False` sentinel becomes
`Option.none`); `sys.exit(n)` and an uncaught `KeyError` become the
error type `Err`.  Per the design scope (spec §1), the core receives
already-stripped, comment-free source lines, and the encoder's output
words are collected into a list instead of being written to a file.
-/

/-- Fatal outcomes of the Python code: `sys.exit n` calls, an uncaught
dictionary `KeyError`, and the `UnboundLocalError` reached when a
C-instruction line has neither `=` nor `;`. -/
inductive Err where
  | exitCode : Nat → Err
  | keyError : String → Err
  | unboundLocal : Err
deriving DecidableEq, Repr

/-- Python `s.startswith(c)` for a one-character prefix `c`. -/
def startswith (s : String) (c : Char) : Bool :=
  match s.data with
  | [] => false
  | a :: _ => a == c

/-- Python `s[1:]`. -/
def slice_from1 (s : String) : String :=
  ⟨s.data.drop 1⟩

/-- Python `s[1:-1]`. -/
def slice_inner (s : String) : String :=
  ⟨(s.data.drop 1).dropLast⟩

/-- Python `c in s` for a one-character `c`. -/
def containsChar (s : String) (c : Char) : Bool :=
  s.data.contains c

/-- Python `s.split(sep)` on a list of characters, for a one-character
separator. -/
def splitChars (sep : Char) : List Char → List (List Char)
  | [] => [[]]
  | c :: cs =>
    let r := splitChars sep cs
    if c == sep then [] :: r
    else
      match r with
      | [] => [[c]]
      | h :: t => (c :: h) :: t

/-- Python `s.split(sep)` for a one-character separator. -/
def splitOnChar (s : String) (sep : Char) : List String :=
  (splitChars sep s.data).map String.mk

/-- Accumulator loop for Python `int(s)`: consumes decimal digits,
fails on any other character. -/
def digitsToNatAux : List Char → Nat → Option Nat
  | [], acc => some acc
  | c :: cs, acc =>
    if c.isDigit then digitsToNatAux cs (10 * acc + (c.toNat - 48))
    else none

/-- Python `int(s)` (raising `ValueError` becomes `none`): an optional
sign followed by at least one decimal digit. -/
def parseInt (s : String) : Option Int :=
  match s.data with
  | [] => none
  | '-' :: cs =>
    if cs = [] then none
    else (digitsToNatAux cs 0).map (fun n => -(n : Int))
  | '+' :: cs =>
    if cs = [] then none
    else (digitsToNatAux cs 0).map (fun n => (n : Int))
  | cs => (digitsToNatAux cs 0).map (fun n => (n : Int))

/-- Fuel-driven loop of Python `format(n, "b")`: binary digits, most
significant first, no leading zeros, `0 ↦ "0"`. -/
def natToBinAux : Nat → Nat → String
  | 0, _ => ""
  | fuel + 1, n =>
    if n < 2 then (if n = 1 then "1" else "0")
    else natToBinAux fuel (n / 2) ++ (if n % 2 = 1 then "1" else "0")

/-- Python `format(n, "b")` for a natural number. -/
def natToBin (n : Nat) : String :=
  natToBinAux (n + 1) n

/-- Python `f"{a:b}"` for an `int`: a minus sign followed by the binary
digits of the magnitude when `a` is negative. -/
def intToBin (a : Int) : String :=
  if a < 0 then "-" ++ natToBin a.natAbs else natToBin a.toNat

/-- One decimal digit as a string. -/
def decDigit (d : Nat) : String :=
  if d = 0 then "0" else if d = 1 then "1" else if d = 2 then "2"
  else if d = 3 then "3" else if d = 4 then "4" else if d = 5 then "5"
  else if d = 6 then "6" else if d = 7 then "7" else if d = 8 then "8"
  else "9"

/-- Fuel-driven loop of Python `str(n)` for a natural number. -/
def natToDecAux : Nat → Nat → String
  | 0, _ => ""
  | fuel + 1, n =>
    if n < 10 then decDigit n
    else natToDecAux fuel (n / 10) ++ decDigit (n % 10)

/-- Python `str(n)` for a natural number. -/
def natToDec (n : Nat) : String :=
  natToDecAux (n + 1) n

/-- Python `str(a)` for an `int`. -/
def intToDec (a : Int) : String :=
  if a < 0 then "-" ++ natToDec a.natAbs else natToDec a.toNat

/-- Python `k * "0"` for `k ≥ 0` (a negative Python repeat count gives
`""`, matching truncated `Nat` subtraction at every call site). -/
def mkZeros (k : Nat) : String :=
  ⟨List.replicate k '0'⟩

/-- `SymbolTable`: the Python dict `self.table`, as a lookup function.
A key absent from the dict is `none` (the Python `get_value` returns
`False` for it). -/
structure SymbolTable where
  table : String → Option Int

/-- `SymbolTable.store_symbol`: `self.table[symbol] = address`. -/
def store_symbol (t : SymbolTable) (symbol : String) (address : Int) : SymbolTable :=
  ⟨fun s => if s = symbol then some address else t.table s⟩

/-- `SymbolTable.get_value`: the stored address, or `none` for the
Python `False` sentinel. -/
def get_value (t : SymbolTable) (symbol : String) : Option Int :=
  t.table symbol

/-- `SymbolTable._get_defaults`: the 23 predefined symbols (the Python
`for i in range(16)` loop over `R0`..`R15` is unrolled). -/
def _get_defaults : String → Option Int := fun s =>
  if s = "SP" then some 0
  else if s = "LCL" then some 1
  else if s = "ARG" then some 2
  else if s = "THIS" then some 3
  else if s = "THAT" then some 4
  else if s = "SCREEN" then some 16384
  else if s = "KBD" then some 24576
  else if s = "R0" then some 0
  else if s = "R1" then some 1
  else if s = "R2" then some 2
  else if s = "R3" then some 3
  else if s = "R4" then some 4
  else if s = "R5" then some 5
  else if s = "R6" then some 6
  else if s = "R7" then some 7
  else if s = "R8" then some 8
  else if s = "R9" then some 9
  else if s = "R10" then some 10
  else if s = "R11" then some 11
  else if s = "R12" then some 12
  else if s = "R13" then some 13
  else if s = "R14" then some 14
  else if s = "R15" then some 15
  else none

/-- `SymbolTable.__init__`: `self.table = self._get_defaults()`. -/
def SymbolTable_init : SymbolTable :=
  ⟨_get_defaults⟩

/-- `Reader.check_if_label`.  The Python guard is
`if not self.symbol_table.get_value(label_name)`, which stores when the
lookup returns the `False` sentinel *or* the falsy address `0`.  A label
line yields `none` (the Python `return False`); any other line is
returned unchanged. -/
def check_if_label (t : SymbolTable) (code_piece : String) (counter : Int) :
    Option String × SymbolTable :=
  if startswith code_piece '(' then
    let label_name := slice_inner code_piece
    match get_value t label_name with
    | none => (none, store_symbol t label_name (counter + 1))
    | some v =>
      if v = 0 then (none, store_symbol t label_name (counter + 1))
      else (none, t)
  else (some code_piece, t)

/-- The loop body of `Reader.read_source` over the already-stripped
lines (comment and whitespace stripping is the external I/O layer per
spec §1; the `len(line_part) > 0` guard is kept). -/
def read_source_aux : List String → SymbolTable → Int → List String × SymbolTable
  | [], t, _ => ([], t)
  | line :: rest, t, counter =>
    if 0 < line.length then
      match check_if_label t line counter with
      | (some code_piece, t2) =>
        let r := read_source_aux rest t2 (counter + 1)
        (code_piece :: r.1, r.2)
      | (none, t2) => read_source_aux rest t2 counter
    else read_source_aux rest t counter

/-- `Reader.read_source`: a fresh default symbol table, the line counter
starting at `-1`. -/
def read_source (lines : List String) : List String × SymbolTable :=
  read_source_aux lines SymbolTable_init (-1)

/-- `Translator.A_INSTRUCTION_LENGTH`. -/
def A_INSTRUCTION_LENGTH : Nat := 15

/-- `Translator.A_SIZE = 2**15 - 1`. -/
def A_SIZE : Int := 2 ^ 15 - 1

/-- `Translator.A_OP_CODE`. -/
def A_OP_CODE : Nat := 0

/-- `Translator.C_OP_CODE`. -/
def C_OP_CODE : Nat := 1

/-- `Translator.C_FILLER`. -/
def C_FILLER : Nat := 11

/-- The mutable state of a `Translator`: the symbol table shared with
the reader, and `self.next_free_mem`. -/
structure TransState where
  symbol_table : SymbolTable
  next_free_mem : Int

/-- `Translator.__init__`: `self.next_free_mem = 16`. -/
def Translator_init (t : SymbolTable) : TransState :=
  ⟨t, 16⟩

/-- `Translator._allocate_address_if_needed`: the lookup uses
`if address is False`, so a stored address `0` is *not* treated as
absent here. -/
def _allocate_address_if_needed (st : TransState) (address_key : String) :
    Int × TransState :=
  match get_value st.symbol_table address_key with
  | some address => (address, st)
  | none =>
    let address := st.next_free_mem
    (address, ⟨store_symbol st.symbol_table address_key address, st.next_free_mem + 1⟩)

/-- The format step of `Translator._convert_a_instruction`:
`f"{A_OP_CODE}{zeros_to_fill * char0}{addr}"` where
`zeros_to_fill = A_INSTRUCTION_LENGTH - len(addr)` (a negative Python
repeat count yields the empty string, as does the truncated `Nat`
subtraction). -/
def a_format (address : Int) : String :=
  let addr := intToBin address
  let zeros_to_fill := A_INSTRUCTION_LENGTH - addr.length
  natToDec A_OP_CODE ++ mkZeros zeros_to_fill ++ addr

/-- `Translator._handle_bad_address`: `sys.exit(3)` exactly when the
value is the `False` sentinel. -/
def _handle_bad_address : Option Int → Except Err Unit
  | none => .error (.exitCode 3)
  | some _ => .ok ()

/-- `Translator._convert_a_instruction`.  When the address exceeds
`A_SIZE` it is replaced by the table lookup of its decimal text; the
`none` branch is `_handle_bad_address`'s `sys.exit(3)`. -/
def _convert_a_instruction (st : TransState) (address : Int) : Except Err String :=
  let address2 : Option Int :=
    if A_SIZE < address then get_value st.symbol_table (intToDec address)
    else some address
  match address2 with
  | none => .error (.exitCode 3)
  | some address3 => .ok (a_format address3)

/-- `Translator.process_a_instruction`: try `int(...)`; on `ValueError`
fall back to symbol allocation.  The resulting translator state is
returned alongside the encoded word. -/
def process_a_instruction (st : TransState) (code_piece : String) :
    Except Err (String × TransState) :=
  let address_key := slice_from1 code_piece
  match parseInt address_key with
  | some address =>
    match _convert_a_instruction st address with
    | .error e => .error e
    | .ok instr => .ok (instr, st)
  | none =>
    let r := _allocate_address_if_needed st address_key
    match _convert_a_instruction r.2 r.1 with
    | .error e => .error e
    | .ok instr => .ok (instr, r.2)

/-- The three sub-dicts of `Translator.c_instruction_map`, as
association lists (Python dict lookup misses raise `KeyError`). -/
structure CMap where
  comp : List (String × String)
  dest : List (String × String)
  jmp : List (String × String)

/-- Python dict lookup on an association list. -/
def assocLookup : List (String × String) → String → Option String
  | [], _ => none
  | p :: rest, key => if key = p.1 then some p.2 else assocLookup rest key

/-- `Translator._convert_c_instruction`:
`f"{C_OP_CODE}{C_FILLER}"` then the `comp`, `dest`, `jmp` lookups
appended in `C_FIELDS` order; a miss raises `KeyError`. -/
def _convert_c_instruction (m : CMap) (comp dest jmp : String) : Except Err String :=
  match assocLookup m.comp comp with
  | none => .error (.keyError comp)
  | some cbits =>
    match assocLookup m.dest dest with
    | none => .error (.keyError dest)
    | some dbits =>
      match assocLookup m.jmp jmp with
      | none => .error (.keyError jmp)
      | some jbits =>
        .ok (natToDec C_OP_CODE ++ natToDec C_FILLER ++ cbits ++ dbits ++ jbits)

/-- `Translator.process_c_instruction`: the `=` form implies jump
`null`, the `;` form implies destination `null`; a line with neither
delimiter leaves `instruction` unbound (`UnboundLocalError`). -/
def process_c_instruction (m : CMap) (code_piece : String) : Except Err String :=
  if containsChar code_piece '=' then
    let parts := splitOnChar code_piece '='
    let dest := parts.getD 0 ""
    let comp := parts.getD 1 ""
    _convert_c_instruction m comp dest "null"
  else if containsChar code_piece ';' then
    let parts := splitOnChar code_piece ';'
    let comp := parts.getD 0 ""
    let jmp := parts.getD 1 ""
    _convert_c_instruction m comp "null" jmp
  else .error .unboundLocal

/-- `Translator.translate`: dispatch on a leading `@`, stop at the first
fatal error, collect the emitted words in source order (the file write
is the external sink per spec §1). -/
def Translator.translate (m : CMap) : TransState → List String → Except Err (List String × TransState)
  | st, [] => .ok ([], st)
  | st, code :: rest =>
    if startswith code '@' then
      match process_a_instruction st code with
      | .error e => .error e
      | .ok (instr, st2) =>
        match translate m st2 rest with
        | .error e => .error e
        | .ok (instrs, st3) => .ok (instr :: instrs, st3)
    else
      match process_c_instruction m code with
      | .error e => .error e
      | .ok instr =>
        match translate m st rest with
        | .error e => .error e
        | .ok (instrs, st3) => .ok (instr :: instrs, st3)

/-- Modelled from the spec: the repository's `c_instruction_map` data
file is loaded by `Translator._setup_c_map` but is not part of the
source tree here; per spec §3/§4.3 it is the fixed architecture-defined
three-part mnemonic vocabulary mapping each mnemonic to a fixed-width
bit fragment (computation 7 bits, destination 3 bits, jump 3 bits, so
that every emitted word has 16 characters). -/
def c_instruction_map : CMap :=
  ⟨[("0", "0101010"), ("1", "0111111"), ("-1", "0111010"),
    ("D", "0001100"), ("A", "0110000"), ("!D", "0001101"),
    ("!A", "0110001"), ("-D", "0001111"), ("-A", "0110011"),
    ("D+1", "0011111"), ("A+1", "0110111"), ("D-1", "0001110"),
    ("A-1", "0110010"), ("D+A", "0000010"), ("D-A", "0010011"),
    ("A-D", "0000111"), ("D&A", "0000000"), ("D|A", "0010101"),
    ("M", "1110000"), ("!M", "1110001"), ("-M", "1110011"),
    ("M+1", "1110111"), ("M-1", "1110010"), ("D+M", "1000010"),
    ("D-M", "1010011"), ("M-D", "1000111"), ("D&M", "1000000"),
    ("D|M", "1010101")],
   [("null", "000"), ("M", "001"), ("D", "010"), ("MD", "011"),
    ("A", "100"), ("AM", "101"), ("AD", "110"), ("AMD", "111")],
   [("null", "000"), ("JGT", "001"), ("JEQ", "010"), ("JGE", "011"),
    ("JLT", "100"), ("JNE", "101"), ("JLE", "110"), ("JMP", "111")]⟩

/-- `is_asm_input`, over the input path's suffix (the `Path.suffix`
computation is the external path library): `sys.exit(3)` unless the
suffix is `.asm`. -/
def is_asm_input (suffix : String) : Except Err Bool :=
  if suffix ≠ ".asm" then .error (.exitCode 3) else .ok true

/-- The `__main__` guard `if not input_path.exists(): sys.exit(3)`
(path existence itself is the external filesystem). -/
def main_path_check (path_exists : Bool) : Except Err Unit :=
  if path_exists then .ok () else .error (.exitCode 3)

/-- The numeric value of a binary digit string (an independent decoder,
used to state that an encoded address round-trips). -/
def binValAux : List Char → Nat → Nat
  | [], acc => acc
  | c :: cs, acc => binValAux cs (2 * acc + (if c == '1' then 1 else 0))

/-- Value of a binary string, most significant digit first. -/
def binVal (s : String) : Nat :=
  binValAux s.data 0

/-- Every character of `s` is `0` or `1`. -/
def bits01 (s : String) : Bool :=
  s.data.all (fun c => c == '0' || c == '1')

/-! ### Basic lemmas about the symbol table and the string helpers -/

theorem get_value_store_self (t : SymbolTable) (x : String) (a : Int) :
    get_value (store_symbol t x a) x = some a := by
  simp [get_value, store_symbol]

theorem get_value_store_other (t : SymbolTable) (x y : String) (a : Int)
    (h : y ≠ x) : get_value (store_symbol t x a) y = get_value t y := by
  simp [get_value, store_symbol, h]

theorem binValAux_append (l1 l2 : List Char) (acc : Nat) :
    binValAux (l1 ++ l2) acc = binValAux l2 (binValAux l1 acc) := by
  induction l1 generalizing acc with
  | nil => rfl
  | cons c cs ih => simp [binValAux, ih]

theorem binValAux_replicate_zero (k acc : Nat) :
    binValAux (List.replicate k '0') acc = acc * 2 ^ k := by
  induction k generalizing acc with
  | zero => simp [binValAux]
  | succ k ih =>
    show binValAux ('0' :: List.replicate k '0') acc = acc * 2 ^ (k + 1)
    have e : binValAux ('0' :: List.replicate k '0') acc
        = binValAux (List.replicate k '0') (2 * acc + 0) := rfl
    rw [e, ih, pow_succ]
    ring

theorem binVal_natToBinAux (fuel : Nat) :
    ∀ n, n < fuel → binVal (natToBinAux fuel n) = n := by
  induction fuel with
  | zero => intro n h; omega
  | succ fuel ih =>
    intro n h
    by_cases h2 : n < 2
    · interval_cases n <;> rfl
    · have hdiv : n / 2 < fuel := by omega
      have ihh := ih (n / 2) hdiv
      have e : natToBinAux (fuel + 1) n
          = natToBinAux fuel (n / 2) ++ (if n % 2 = 1 then "1" else "0") := by
        simp only [natToBinAux, if_neg h2]
      unfold binVal at *
      rw [e, String.data_append, binValAux_append, ihh]
      by_cases h3 : n % 2 = 1
      · rw [if_pos h3]
        show binValAux [] (2 * (n / 2) + 1) = n
        simp only [binValAux]
        omega
      · rw [if_neg h3]
        show binValAux [] (2 * (n / 2) + 0) = n
        simp only [binValAux]
        omega

theorem natToBinAux_length_le (fuel : Nat) :
    ∀ n k, n < fuel → n < 2 ^ k → 1 ≤ k → (natToBinAux fuel n).length ≤ k := by
  induction fuel with
  | zero => intro n k h _ _; omega
  | succ fuel ih =>
    intro n k h hk h1
    by_cases h2 : n < 2
    · have e1 : (natToBinAux (fuel + 1) n).length = 1 := by
        interval_cases n <;> rfl
      omega
    · have hk2 : 2 ≤ k := by
        rcases Nat.lt_or_ge k 2 with hlt | hge
        · have : k = 1 := by omega
          subst this
          norm_num at hk
          omega
        · exact hge
      have e : natToBinAux (fuel + 1) n
          = natToBinAux fuel (n / 2) ++ (if n % 2 = 1 then "1" else "0") := by
        simp only [natToBinAux, if_neg h2]
      have hdiv : n / 2 < fuel := by omega
      have hpow : 2 * 2 ^ (k - 1) = 2 ^ k := by
        rw [← pow_succ']
        congr 1
        omega
      have hdivk : n / 2 < 2 ^ (k - 1) := by omega
      have hrec := ih (n / 2) (k - 1) hdiv hdivk (by omega)
      have hbit : (if n % 2 = 1 then "1" else "0").length = 1 := by
        by_cases h3 : n % 2 = 1
        · rw [if_pos h3]; rfl
        · rw [if_neg h3]; rfl
      rw [e, String.length_append]
      omega

theorem bits01_append (s t : String) :
    bits01 (s ++ t) = (bits01 s && bits01 t) := by
  simp [bits01, String.data_append, List.all_append]

theorem natToBinAux_bits01 (fuel : Nat) :
    ∀ n, bits01 (natToBinAux fuel n) = true := by
  induction fuel with
  | zero => intro n; rfl
  | succ fuel ih =>
    intro n
    by_cases h2 : n < 2
    · interval_cases n <;> rfl
    · have e : natToBinAux (fuel + 1) n
          = natToBinAux fuel (n / 2) ++ (if n % 2 = 1 then "1" else "0") := by
        simp only [natToBinAux, if_neg h2]
      rw [e, bits01_append, ih]
      by_cases h3 : n % 2 = 1
      · rw [if_pos h3]; rfl
      · rw [if_neg h3]; rfl

theorem mkZeros_length (k : Nat) : (mkZeros k).length = k := by
  simp [mkZeros, String.length]

theorem mkZeros_bits01 (k : Nat) : bits01 (mkZeros k) = true := by
  simp only [mkZeros, bits01, List.all_eq_true]
  intro c hc
  have := List.eq_of_mem_replicate hc
  subst this
  rfl

theorem binVal_mkZeros_append (k : Nat) (s : String) :
    binVal (mkZeros k ++ s) = binVal s := by
  unfold binVal
  rw [String.data_append]
  show binValAux (List.replicate k '0' ++ s.data) 0 = binValAux s.data 0
  rw [binValAux_append, binValAux_replicate_zero]
  simp

theorem a_format_shape (a : Int) (h0 : 0 ≤ a) (h1 : a ≤ A_SIZE) :
    ∃ t, a_format a = "0" ++ t ∧ t.length = 15 ∧ bits01 t = true ∧
      binVal t = a.toNat := by
  have hneg : ¬ a < 0 := by omega
  have hsize : A_SIZE = (32767 : Int) := by norm_num [A_SIZE]
  have hlt : a.toNat < 2 ^ 15 := by
    rw [hsize] at h1
    norm_num
    omega
  have hfuel : a.toNat < a.toNat + 1 := Nat.lt_succ_self _
  have hlen : (natToBin a.toNat).length ≤ 15 :=
    natToBinAux_length_le _ _ 15 hfuel hlt (by omega)
  have hbv : binVal (natToBin a.toNat) = a.toNat := binVal_natToBinAux _ _ hfuel
  have hb01 : bits01 (natToBin a.toNat) = true := natToBinAux_bits01 _ _
  have hi : intToBin a = natToBin a.toNat := by
    simp [intToBin, hneg]
  refine ⟨mkZeros (A_INSTRUCTION_LENGTH - (intToBin a).length) ++ intToBin a,
    ?_, ?_, ?_, ?_⟩
  · show natToDec A_OP_CODE ++ mkZeros (A_INSTRUCTION_LENGTH - (intToBin a).length)
        ++ intToBin a = _
    have h00 : natToDec A_OP_CODE = "0" := rfl
    rw [h00, String.append_assoc]
  · rw [String.length_append, mkZeros_length, hi]
    unfold A_INSTRUCTION_LENGTH
    omega
  · rw [bits01_append, mkZeros_bits01, hi, hb01]
    rfl
  · rw [hi, binVal_mkZeros_append, hbv]

theorem a_format_length (a : Int) (h0 : 0 ≤ a) (h1 : a ≤ A_SIZE) :
    (a_format a).length = 16 ∧ bits01 (a_format a) = true := by
  obtain ⟨t, he, hl, hb, _⟩ := a_format_shape a h0 h1
  rw [he, String.length_append, hl, bits01_append, hb]
  exact ⟨rfl, rfl⟩

theorem assocLookup_mem (l : List (String × String)) (k v : String)
    (h : assocLookup l k = some v) : (k, v) ∈ l := by
  induction l with
  | nil => simp [assocLookup] at h
  | cons p rest ih =>
    unfold assocLookup at h
    by_cases hk : k = p.1
    · rw [if_pos hk] at h
      have hv : v = p.2 := by
        injection h with h2
        exact h2.symm
      subst hk
      subst hv
      simp
    · rw [if_neg hk] at h
      exact List.mem_cons_of_mem _ (ih h)

theorem cmap_comp_shape (k v : String)
    (h : assocLookup c_instruction_map.comp k = some v) :
    v.length = 7 ∧ bits01 v = true := by
  have hmem := assocLookup_mem _ _ _ h
  have hall : c_instruction_map.comp.all
      (fun p => p.2.length == 7 && bits01 p.2) = true := by decide
  have := List.all_eq_true.mp hall _ hmem
  simp at this
  exact ⟨this.1, this.2⟩

theorem cmap_dest_shape (k v : String)
    (h : assocLookup c_instruction_map.dest k = some v) :
    v.length = 3 ∧ bits01 v = true := by
  have hmem := assocLookup_mem _ _ _ h
  have hall : c_instruction_map.dest.all
      (fun p => p.2.length == 3 && bits01 p.2) = true := by decide
  have := List.all_eq_true.mp hall _ hmem
  simp at this
  exact ⟨this.1, this.2⟩

theorem cmap_jmp_shape (k v : String)
    (h : assocLookup c_instruction_map.jmp k = some v) :
    v.length = 3 ∧ bits01 v = true := by
  have hmem := assocLookup_mem _ _ _ h
  have hall : c_instruction_map.jmp.all
      (fun p => p.2.length == 3 && bits01 p.2) = true := by decide
  have := List.all_eq_true.mp hall _ hmem
  simp at this
  exact ⟨this.1, this.2⟩

theorem check_if_label_instr (t : SymbolTable) (x : String) (c : Int)
    (h : ¬ startswith x '(' = true) :
    check_if_label t x c = (some x, t) := by
  simp [check_if_label, h]

theorem check_if_label_fresh (t : SymbolTable) (x : String) (c : Int)
    (h : startswith x '(' = true)
    (hv : get_value t (slice_inner x) = none) :
    check_if_label t x c = (none, store_symbol t (slice_inner x) (c + 1)) := by
  simp [check_if_label, h, hv]

theorem check_if_label_zero (t : SymbolTable) (x : String) (c : Int)
    (h : startswith x '(' = true) (v : Int)
    (hv : get_value t (slice_inner x) = some v) (hz : v = 0) :
    check_if_label t x c = (none, store_symbol t (slice_inner x) (c + 1)) := by
  simp [check_if_label, h, hv, hz]

theorem check_if_label_bound (t : SymbolTable) (x : String) (c : Int)
    (h : startswith x '(' = true) (v : Int)
    (hv : get_value t (slice_inner x) = some v) (hz : ¬ v = 0) :
    check_if_label t x c = (none, t) := by
  simp [check_if_label, h, hv, hz]

theorem read_source_aux_cons_skip (line : String) (rest : List String)
    (t : SymbolTable) (c : Int) (h1 : ¬ 0 < line.length) :
    read_source_aux (line :: rest) t c = read_source_aux rest t c := by
  simp [read_source_aux, h1]

theorem read_source_aux_cons_label (line : String) (rest : List String)
    (t : SymbolTable) (c : Int) (t2 : SymbolTable) (h1 : 0 < line.length)
    (h2 : check_if_label t line c = (none, t2)) :
    read_source_aux (line :: rest) t c = read_source_aux rest t2 c := by
  simp [read_source_aux, if_pos h1, h2]

theorem read_source_aux_cons_emit (line : String) (rest : List String)
    (t : SymbolTable) (c : Int) (piece : String) (t2 : SymbolTable)
    (h1 : 0 < line.length)
    (h2 : check_if_label t line c = (some piece, t2)) :
    read_source_aux (line :: rest) t c
      = (piece :: (read_source_aux rest t2 (c + 1)).1,
         (read_source_aux rest t2 (c + 1)).2) := by
  simp [read_source_aux, if_pos h1, h2]

theorem read_source_aux_append (xs ys : List String) (t : SymbolTable) (c : Int) :
    read_source_aux (xs ++ ys) t c =
      ((read_source_aux xs t c).1
          ++ (read_source_aux ys (read_source_aux xs t c).2
                (c + (read_source_aux xs t c).1.length)).1,
       (read_source_aux ys (read_source_aux xs t c).2
          (c + (read_source_aux xs t c).1.length)).2) := by
  induction xs generalizing t c with
  | nil =>
    simp [read_source_aux]
  | cons x xs ih =>
    by_cases hx : 0 < x.length
    · rcases hcl : check_if_label t x c with ⟨o, t2⟩
      cases o with
      | some piece =>
        rw [List.cons_append, read_source_aux_cons_emit x (xs ++ ys) t c piece t2 hx hcl,
          read_source_aux_cons_emit x xs t c piece t2 hx hcl, ih]
        have hc : c + 1 + ((read_source_aux xs t2 (c + 1)).1.length : Int)
            = c + ((piece :: (read_source_aux xs t2 (c + 1)).1).length : Int) := by
          simp only [List.length_cons]
          push_cast
          ring
        rw [hc]
        simp [List.cons_append]
      | none =>
        rw [List.cons_append, read_source_aux_cons_label x (xs ++ ys) t c t2 hx hcl,
          read_source_aux_cons_label x xs t c t2 hx hcl]
        exact ih t2 c
    · rw [List.cons_append, read_source_aux_cons_skip x (xs ++ ys) t c hx,
        read_source_aux_cons_skip x xs t c hx]
      exact ih t c

theorem read_source_aux_table_stable (lines : List String) :
    ∀ (t : SymbolTable) (c : Int) (nm : String),
      (∀ l ∈ lines, ¬(startswith l '(' = true ∧ slice_inner l = nm)) →
      get_value (read_source_aux lines t c).2 nm = get_value t nm := by
  induction lines with
  | nil => intro t c nm _; rfl
  | cons x xs ih =>
    intro t c nm h
    have hx := h x (by simp)
    have hxs : ∀ l ∈ xs, ¬(startswith l '(' = true ∧ slice_inner l = nm) :=
      fun l hl => h l (by simp [hl])
    by_cases hlen : 0 < x.length
    · by_cases hpar : startswith x '(' = true
      · have hne : nm ≠ slice_inner x := fun he => hx ⟨hpar, he.symm⟩
        rcases hv : get_value t (slice_inner x) with _ | v
        · rw [read_source_aux_cons_label x xs t c _ hlen
            (check_if_label_fresh t x c hpar hv), ih _ c nm hxs,
            get_value_store_other _ _ _ _ hne]
        · by_cases hz : v = 0
          · rw [read_source_aux_cons_label x xs t c _ hlen
              (check_if_label_zero t x c hpar v hv hz), ih _ c nm hxs,
              get_value_store_other _ _ _ _ hne]
          · rw [read_source_aux_cons_label x xs t c _ hlen
              (check_if_label_bound t x c hpar v hv hz)]
            exact ih t c nm hxs
      · rw [read_source_aux_cons_emit x xs t c x t hlen
          (check_if_label_instr t x c hpar)]
        exact ih t (c + 1) nm hxs
    · rw [read_source_aux_cons_skip x xs t c hlen]
      exact ih t c nm hxs

theorem _convert_c_success_shape (m : CMap) (comp dest jmp s : String)
    (h : _convert_c_instruction m comp dest jmp = .ok s) :
    ∃ cbits dbits jbits,
      assocLookup m.comp comp = some cbits ∧
      assocLookup m.dest dest = some dbits ∧
      assocLookup m.jmp jmp = some jbits ∧
      s = natToDec C_OP_CODE ++ natToDec C_FILLER ++ cbits ++ dbits ++ jbits := by
  unfold _convert_c_instruction at h
  rcases h1 : assocLookup m.comp comp with _ | cbits
  · rw [h1] at h; cases h
  · rw [h1] at h
    rcases h2 : assocLookup m.dest dest with _ | dbits
    · rw [h2] at h; cases h
    · rw [h2] at h
      rcases h3 : assocLookup m.jmp jmp with _ | jbits
      · rw [h3] at h; cases h
      · rw [h3] at h
        refine ⟨cbits, dbits, jbits, rfl, rfl, rfl, ?_⟩
        injection h with h4
        exact h4.symm

theorem process_c_eq_form (m : CMap) (piece : String)
    (hc : containsChar piece '=' = true) :
    process_c_instruction m piece
      = _convert_c_instruction m ((splitOnChar piece '=').getD 1 "")
          ((splitOnChar piece '=').getD 0 "") "null" := by
  simp [process_c_instruction, hc]

theorem process_c_semi_form (m : CMap) (piece : String)
    (hc : containsChar piece '=' = false) (hs : containsChar piece ';' = true) :
    process_c_instruction m piece
      = _convert_c_instruction m ((splitOnChar piece ';').getD 0 "") "null"
          ((splitOnChar piece ';').getD 1 "") := by
  simp [process_c_instruction, hc, hs]

theorem process_c_no_delim (m : CMap) (piece : String)
    (hc : containsChar piece '=' = false) (hs : containsChar piece ';' = false) :
    process_c_instruction m piece = .error .unboundLocal := by
  simp [process_c_instruction, hc, hs]

theorem c_word_shape (s cbits dbits jbits : String)
    (hs : s = natToDec C_OP_CODE ++ natToDec C_FILLER ++ cbits ++ dbits ++ jbits)
    (hc : cbits.length = 7) (hcb : bits01 cbits = true)
    (hd : dbits.length = 3) (hdb : bits01 dbits = true)
    (hj : jbits.length = 3) (hjb : bits01 jbits = true) :
    s.length = 16 ∧ bits01 s = true := by
  subst hs
  have e1 : (natToDec C_OP_CODE).length = 1 := rfl
  have e2 : (natToDec C_FILLER).length = 2 := rfl
  have e3 : bits01 (natToDec C_OP_CODE) = true := rfl
  have e4 : bits01 (natToDec C_FILLER) = true := rfl
  constructor
  · simp only [String.length_append, e1, e2, hc, hd, hj]
  · simp only [bits01_append, e3, e4, hcb, hdb, hjb, Bool.and_self]

/-- C1: the specification claims a label-definition line whose name is
already bound (a duplicate, or a clash with a predefined symbol such as
`SP` or `R0`) is never rebound.  The code's guard
`if not self.symbol_table.get_value(label_name)` confuses the stored
address `0` with the `False` not-found sentinel, so on the source
`@0` followed by `(SP)` the resolver rebinds the predefined `SP`
(value `0`) to `1`. -/
theorem c1_zero_valued_binding_is_rebound :
    get_value (read_source ["@0", "(SP)"]).2 "SP" = some 1 ∧
    get_value SymbolTable_init "SP" = some 0 := by
  exact ⟨by decide, by decide⟩

/-- C2: an A-instruction whose value parses as an integer is encoded
directly when it is at most `A_SIZE = 2^15 - 1` (with the translator
state untouched); beyond that bound its decimal text is looked up in the
symbol table, and translation fails with `sys.exit(3)` exactly when that
lookup finds no binding. -/
theorem c2_literal_range (st : TransState) (piece : String) (n : Int)
    (hp : parseInt (slice_from1 piece) = some n) (hn : 0 ≤ n) :
    (n ≤ A_SIZE → process_a_instruction st piece = .ok (a_format n, st)) ∧
    (A_SIZE < n →
      (get_value st.symbol_table (intToDec n) = none →
        process_a_instruction st piece = .error (.exitCode 3)) ∧
      (∀ v, get_value st.symbol_table (intToDec n) = some v →
        process_a_instruction st piece = .ok (a_format v, st))) := by
  constructor
  · intro hle
    have hnot : ¬ A_SIZE < n := by omega
    simp [process_a_instruction, hp, _convert_a_instruction, hnot]
  · intro hgt
    constructor
    · intro hnone
      simp [process_a_instruction, hp, _convert_a_instruction, hgt, hnone]
    · intro v hv
      simp [process_a_instruction, hp, _convert_a_instruction, hgt, hv]

/-- Witness for C2 at the boundary: `@32767` encodes directly with the
default table, `@32768` exits with status 3 because `"32768"` is not a
symbol there. -/
theorem c2_literal_range_witness :
    process_a_instruction (Translator_init SymbolTable_init) "@32767"
      = .ok (a_format 32767, Translator_init SymbolTable_init) ∧
    process_a_instruction (Translator_init SymbolTable_init) "@32768"
      = .error (.exitCode 3) :=
  ⟨(c2_literal_range (Translator_init SymbolTable_init) "@32767" 32767
      rfl (by decide)).1 (by decide),
   ((c2_literal_range (Translator_init SymbolTable_init) "@32768" 32768
      rfl (by decide)).2 (by decide)).1 (by decide)⟩

/-- C7: variable allocation is idempotent (looking the same key up
again returns the same address and leaves the state unchanged), a fresh
key receives exactly `next_free_mem` and bumps the counter by one, and
from the encoder's initial state (`next_free_mem = 16`) two distinct
fresh variables receive the consecutive addresses 16 and 17. -/
theorem c7_allocation_idempotent_consecutive :
    (∀ (st : TransState) (x : String),
       _allocate_address_if_needed (_allocate_address_if_needed st x).2 x
         = _allocate_address_if_needed st x) ∧
    (∀ (st : TransState) (x : String), get_value st.symbol_table x = none →
       (_allocate_address_if_needed st x).1 = st.next_free_mem ∧
       (_allocate_address_if_needed st x).2.next_free_mem
         = st.next_free_mem + 1) ∧
    (∀ (t : SymbolTable) (x y : String), x ≠ y →
       get_value t x = none → get_value t y = none →
       (_allocate_address_if_needed (Translator_init t) x).1 = 16 ∧
       (_allocate_address_if_needed
           (_allocate_address_if_needed (Translator_init t) x).2 y).1 = 17) := by
  refine ⟨?_, ?_, ?_⟩
  · intro st x
    rcases h : get_value st.symbol_table x with _ | v
    · simp [_allocate_address_if_needed, h, get_value_store_self]
    · simp [_allocate_address_if_needed, h]
  · intro st x h
    simp [_allocate_address_if_needed, h]
  · intro t x y hxy hx hy
    constructor
    · simp [_allocate_address_if_needed, Translator_init, hx]
    · have h2 : get_value (store_symbol t x 16) y = none := by
        rw [get_value_store_other _ _ _ _ (Ne.symm hxy)]
        exact hy
      simp [_allocate_address_if_needed, Translator_init, hx, h2]

/-- Witness for C7: in the default table the fresh names `i` and `sum`
receive 16 and 17. -/
theorem c7_allocation_witness :
    (_allocate_address_if_needed (Translator_init SymbolTable_init) "i").1 = 16 ∧
    (_allocate_address_if_needed
        (_allocate_address_if_needed (Translator_init SymbolTable_init) "i").2
        "sum").1 = 17 :=
  (c7_allocation_idempotent_consecutive).2.2 SymbolTable_init "i" "sum"
    (by decide) (by decide) (by decide)

/-- C8: `@0` encodes to sixteen zeros and `@SCREEN` (predefined 16384)
encodes to `0100000000000000` under the default table. -/
theorem c8_roundtrip_words :
    (process_a_instruction (Translator_init SymbolTable_init) "@0").map Prod.fst
      = .ok "0000000000000000" ∧
    (process_a_instruction (Translator_init SymbolTable_init) "@SCREEN").map Prod.fst
      = .ok "0100000000000000" :=
  ⟨rfl, rfl⟩

/-- C10: a symbol stored with address `0` is found by the encoder's
`is False` absence test: the allocation step returns address `0` and
leaves both the symbol table and the free-address counter untouched,
and the whole A-instruction for such a name encodes address `0` without
any state change. -/
theorem c10_stored_zero_resolves_without_allocation (st : TransState)
    (name : String) (h : get_value st.symbol_table name = some 0) :
    _allocate_address_if_needed st name = (0, st) ∧
    (parseInt name = none →
      process_a_instruction st ("@" ++ name) = .ok (a_format 0, st)) := by
  have halloc : _allocate_address_if_needed st name = (0, st) := by
    simp [_allocate_address_if_needed, h]
  refine ⟨halloc, ?_⟩
  intro hparse
  have hkey : slice_from1 ("@" ++ name) = name := by
    rcases name with ⟨data⟩
    rfl
  have hconv : _convert_a_instruction st 0 = .ok (a_format 0) := by
    simp [_convert_a_instruction, A_SIZE]
  simp [process_a_instruction, hkey, hparse, halloc, hconv]

/-- Witness for C10 at `SP` (predefined address 0). -/
theorem c10_stored_zero_witness :
    _allocate_address_if_needed (Translator_init SymbolTable_init) "SP"
      = (0, Translator_init SymbolTable_init) ∧
    process_a_instruction (Translator_init SymbolTable_init) "@SP"
      = .ok (a_format 0, Translator_init SymbolTable_init) := by
  have h := c10_stored_zero_resolves_without_allocation
    (Translator_init SymbolTable_init) "SP" (by decide)
  exact ⟨h.1, h.2 rfl⟩

/-- C3 counterexample: with `"40000"` bound to `40000` (the symbol table
performs no range validation, and a label line at instruction index
40000 produces exactly this binding), the encoder translates `@40000`
without any fatal error, yet the emitted word has 17 characters — the
fallback lookup's result is never range-checked, contradicting the
claim that every successfully emitted word has exactly 16 characters. -/
theorem c3_overlong_word_counterexample :
    (process_a_instruction
        ⟨store_symbol SymbolTable_init "40000" 40000, 16⟩ "@40000").map
      (fun p => p.1.length) = .ok 17 := by
  rfl

/-- C3 (amended): an in-range address (direct literal, or a fallback
lookup that returns an in-range value) is emitted as `'0'` followed by a
15-character zero-padded binary string — 16 characters of `0`/`1` whose
tail decodes back to the address; the fatal `sys.exit(3)` fires exactly
when the over-range literal's fallback lookup finds no binding (a
fallback lookup returning an *over-range* binding is emitted without a
further range check, as the counterexample shows); every successfully
encoded C-instruction under the mnemonic map is likewise 16 characters
of `0`/`1`. -/
theorem c3_word_shape_amended :
    (∀ (st : TransState) (a : Int), 0 ≤ a → a ≤ A_SIZE →
       _convert_a_instruction st a = .ok (a_format a)) ∧
    (∀ (st : TransState) (a v : Int), A_SIZE < a →
       get_value st.symbol_table (intToDec a) = some v →
       _convert_a_instruction st a = .ok (a_format v)) ∧
    (∀ (st : TransState) (a : Int), A_SIZE < a →
       get_value st.symbol_table (intToDec a) = none →
       _convert_a_instruction st a = .error (.exitCode 3)) ∧
    (∀ a : Int, 0 ≤ a → a ≤ A_SIZE →
       (a_format a).length = 16 ∧ bits01 (a_format a) = true ∧
       ∃ t, a_format a = "0" ++ t ∧ t.length = 15 ∧ bits01 t = true ∧
         binVal t = a.toNat) ∧
    (∀ piece s, process_c_instruction c_instruction_map piece = .ok s →
       s.length = 16 ∧ bits01 s = true) := by
  refine ⟨?_, ?_, ?_, ?_, ?_⟩
  · intro st a h0 h1
    have hnot : ¬ A_SIZE < a := by omega
    simp [_convert_a_instruction, hnot]
  · intro st a v hgt hv
    simp [_convert_a_instruction, hgt, hv]
  · intro st a hgt hnone
    simp [_convert_a_instruction, hgt, hnone]
  · intro a h0 h1
    obtain ⟨hl, hb⟩ := a_format_length a h0 h1
    exact ⟨hl, hb, a_format_shape a h0 h1⟩
  · intro piece s hok
    by_cases hc : containsChar piece '=' = true
    · rw [process_c_eq_form _ _ hc] at hok
      obtain ⟨cb, db, jb, h1, h2, h3, hs⟩ := _convert_c_success_shape _ _ _ _ _ hok
      obtain ⟨hcl, hcb⟩ := cmap_comp_shape _ _ h1
      obtain ⟨hdl, hdb⟩ := cmap_dest_shape _ _ h2
      obtain ⟨hjl, hjb⟩ := cmap_jmp_shape _ _ h3
      exact c_word_shape s cb db jb hs hcl hcb hdl hdb hjl hjb
    · have hc2 : containsChar piece '=' = false := by simpa using hc
      by_cases hsc : containsChar piece ';' = true
      · rw [process_c_semi_form _ _ hc2 hsc] at hok
        obtain ⟨cb, db, jb, h1, h2, h3, hs⟩ := _convert_c_success_shape _ _ _ _ _ hok
        obtain ⟨hcl, hcb⟩ := cmap_comp_shape _ _ h1
        obtain ⟨hdl, hdb⟩ := cmap_dest_shape _ _ h2
        obtain ⟨hjl, hjb⟩ := cmap_jmp_shape _ _ h3
        exact c_word_shape s cb db jb hs hcl hcb hdl hdb hjl hjb
      · have hs2 : containsChar piece ';' = false := by simpa using hsc
        rw [process_c_no_delim _ _ hc2 hs2] at hok
        cases hok

/-- Witness for C3 (amended): the in-range address 16384 and the
C-instruction `D=A` both yield 16-character `0`/`1` words. -/
theorem c3_word_shape_amended_witness :
    _convert_a_instruction (Translator_init SymbolTable_init) 16384
      = .ok (a_format 16384) ∧
    (a_format 16384).length = 16 ∧
    "1110110000010000".length = 16 ∧ bits01 "1110110000010000" = true :=
  ⟨c3_word_shape_amended.1 (Translator_init SymbolTable_init) 16384
      (by decide) (by decide),
   (c3_word_shape_amended.2.2.2.1 16384 (by decide) (by decide)).1,
   (c3_word_shape_amended.2.2.2.2 "D=A" "1110110000010000" rfl).1,
   (c3_word_shape_amended.2.2.2.2 "D=A" "1110110000010000" rfl).2⟩

/-- C4 counterexample: the spec's end-to-end example `@2`, `D=A`, `@3`,
`D=D+A`, `@0`, `M=D` does *not* produce four non-label instructions —
all six lines are instructions. -/
theorem c4_six_not_four_counterexample :
    (read_source ["@2", "D=A", "@3", "D=D+A", "@0", "M=D"]).1.length ≠ 4 := by
  decide

/-- C4 (amended): the six source lines produce six non-label
instructions and six 16-bit output words, the first of which is
`0000000000000010`. -/
theorem c4_end_to_end_amended :
    (read_source ["@2", "D=A", "@3", "D=D+A", "@0", "M=D"]).1.length = 6 ∧
    (Translator.translate c_instruction_map
        (Translator_init (read_source ["@2", "D=A", "@3", "D=D+A", "@0", "M=D"]).2)
        (read_source ["@2", "D=A", "@3", "D=D+A", "@0", "M=D"]).1).map
        (fun p => p.1)
      = .ok ["0000000000000010", "1110110000010000", "0000000000000011",
             "1110000010010000", "0000000000000000", "1110001100001000"] ∧
    (["0000000000000010", "1110110000010000", "0000000000000011",
      "1110000010010000", "0000000000000000", "1110001100001000"].all
        fun w => w.length == 16) = true := by
  refine ⟨by decide, rfl, by decide⟩

/-- C5 counterexample: three of the four fatal error classes — bad
suffix, missing path, out-of-range address — all terminate with the
*same* status `sys.exit(3)`, so the claimed pairwise-distinct exit
statuses do not exist. -/
theorem c5_statuses_not_distinct_counterexample :
    is_asm_input ".txt" = .error (.exitCode 3) ∧
    main_path_check false = .error (.exitCode 3) ∧
    _handle_bad_address none = .error (.exitCode 3) :=
  ⟨rfl, rfl, rfl⟩

/-- C5 (amended): each detected failure aborts the run at once with a
non-zero outcome, but the statuses are shared, not distinct: bad
suffix, missing path and out-of-range address all use `sys.exit(3)`,
while an unknown mnemonic surfaces as an uncaught `KeyError` rather
than an explicit exit; a failing instruction stops `translate`
immediately with that error. -/
theorem c5_shared_exit_status_amended :
    (∀ sfx, sfx ≠ ".asm" → is_asm_input sfx = .error (.exitCode 3)) ∧
    main_path_check false = .error (.exitCode 3) ∧
    _handle_bad_address none = .error (.exitCode 3) ∧
    (∀ (st : TransState) (a : Int), A_SIZE < a →
       get_value st.symbol_table (intToDec a) = none →
       _convert_a_instruction st a = .error (.exitCode 3)) ∧
    (3 : Nat) ≠ 0 ∧
    (∀ (m : CMap) (comp dest jmp : String), assocLookup m.comp comp = none →
       _convert_c_instruction m comp dest jmp = .error (.keyError comp)) ∧
    (∀ (m : CMap) (st : TransState) (rest : List String) (e : Err)
       (piece : String), startswith piece '@' = true →
       process_a_instruction st piece = .error e →
       Translator.translate m st (piece :: rest) = .error e) := by
  refine ⟨?_, rfl, rfl, ?_, by decide, ?_, ?_⟩
  · intro sfx hs
    simp [is_asm_input, hs]
  · intro st a hgt hnone
    simp [_convert_a_instruction, hgt, hnone]
  · intro m comp dest jmp h
    simp [_convert_c_instruction, h]
  · intro m st rest e piece hstart herr
    simp [Translator.translate, hstart, herr]

/-- Witness for C5 (amended): a `.py` suffix exits with 3, a mnemonic
missing from the map raises its `KeyError`, and an out-of-range literal
aborts the whole translation run with status 3. -/
theorem c5_shared_exit_status_witness :
    is_asm_input ".py" = .error (.exitCode 3) ∧
    _convert_c_instruction c_instruction_map "XXX" "D" "null"
      = .error (.keyError "XXX") ∧
    Translator.translate c_instruction_map (Translator_init SymbolTable_init)
      ["@99999", "D=A"] = .error (.exitCode 3) :=
  ⟨c5_shared_exit_status_amended.1 ".py" (by decide),
   c5_shared_exit_status_amended.2.2.2.2.2.1 c_instruction_map "XXX" "D" "null" rfl,
   c5_shared_exit_status_amended.2.2.2.2.2.2 c_instruction_map
     (Translator_init SymbolTable_init) ["D=A"] (.exitCode 3) "@99999" rfl rfl⟩

/-- C6: a label line whose name is not yet bound, appearing after a
prefix containing exactly N instruction lines (labels and blank lines
not counted), is bound by pass 1 to address N — the index of the next
instruction — and the binding survives the rest of the pass as long as
no later label line reuses the name.  With an empty prefix the label
resolves to 0. -/
theorem c6_label_resolves_to_instruction_count
    (pre rest : List String) (line nm : String)
    (hpar : startswith line '(' = true)
    (hname : slice_inner line = nm)
    (hfresh : get_value (read_source pre).2 nm = none)
    (hrest : ∀ l ∈ rest, ¬(startswith l '(' = true ∧ slice_inner l = nm)) :
    get_value (read_source (pre ++ line :: rest)).2 nm
      = some ((read_source pre).1.length : Int) := by
  have hlen : 0 < line.length := by
    rcases hl : line.data with _ | ⟨a, as⟩
    · exfalso
      have hfalse : startswith line '(' = false := by
        unfold startswith
        rw [hl]
      rw [hfalse] at hpar
      cases hpar
    · have : line.length = as.length + 1 := by
        simp [String.length, hl]
      omega
  unfold read_source at hfresh ⊢
  rw [read_source_aux_append]
  have hfr2 : get_value (read_source_aux pre SymbolTable_init (-1)).2
      (slice_inner line) = none := by
    rw [hname]
    exact hfresh
  rw [read_source_aux_cons_label line rest _ _ _ hlen
    (check_if_label_fresh _ line _ hpar hfr2)]
  rw [read_source_aux_table_stable rest _ _ nm hrest, ← hname,
    get_value_store_self]
  congr 1
  omega

/-- Witness for C6: `(LOOP)` after two instructions resolves to 2 and
stays 2 through the remaining lines; `(LOOP)` before any instruction
resolves to 0. -/
theorem c6_label_resolves_witness :
    get_value (read_source (["@0", "@1"] ++ "(LOOP)" :: ["@2", "(END)"])).2 "LOOP"
      = some ((read_source ["@0", "@1"]).1.length : Int) ∧
    (read_source ["@0", "@1"]).1.length = 2 ∧
    get_value (read_source (([] : List String) ++ "(LOOP)" :: ["@0"])).2 "LOOP"
      = some ((read_source ([] : List String)).1.length : Int) ∧
    (read_source ([] : List String)).1.length = 0 :=
  ⟨c6_label_resolves_to_instruction_count ["@0", "@1"] ["@2", "(END)"]
      "(LOOP)" "LOOP" rfl rfl (by decide) (by decide),
   by decide,
   c6_label_resolves_to_instruction_count [] ["@0"]
      "(LOOP)" "LOOP" rfl rfl (by decide) (by decide),
   by decide⟩

/-- C9: every successfully encoded `dest=comp` line yields the word
`C_OP_CODE ++ C_FILLER ++ comp ++ dest ++ jmp` whose jump field is the
mnemonic map's encoding of `"null"` and whose text begins with `11`;
every successfully encoded `comp;jmp` line's destination field is the
encoding of `"null"`. -/
theorem c9_implied_null_fields :
    (∀ (m : CMap) (piece s : String),
       containsChar piece '=' = true →
       process_c_instruction m piece = .ok s →
       ∃ cbits dbits jbits,
         assocLookup m.comp ((splitOnChar piece '=').getD 1 "") = some cbits ∧
         assocLookup m.dest ((splitOnChar piece '=').getD 0 "") = some dbits ∧
         assocLookup m.jmp "null" = some jbits ∧
         s = natToDec C_OP_CODE ++ natToDec C_FILLER ++ cbits ++ dbits ++ jbits ∧
         List.IsPrefix "11".data s.data) ∧
    (∀ (m : CMap) (piece s : String),
       containsChar piece '=' = false → containsChar piece ';' = true →
       process_c_instruction m piece = .ok s →
       ∃ cbits dbits jbits,
         assocLookup m.comp ((splitOnChar piece ';').getD 0 "") = some cbits ∧
         assocLookup m.dest "null" = some dbits ∧
         assocLookup m.jmp ((splitOnChar piece ';').getD 1 "") = some jbits ∧
         s = natToDec C_OP_CODE ++ natToDec C_FILLER ++ cbits ++ dbits ++ jbits ∧
         List.IsPrefix "11".data s.data) := by
  constructor
  · intro m piece s hc hok
    rw [process_c_eq_form _ _ hc] at hok
    obtain ⟨cb, db, jb, h1, h2, h3, hs⟩ := _convert_c_success_shape _ _ _ _ _ hok
    refine ⟨cb, db, jb, h1, h2, h3, hs, ⟨'1' :: (cb.data ++ (db.data ++ jb.data)), ?_⟩⟩
    rw [hs]
    simp only [String.data_append, List.append_assoc]
    rfl
  · intro m piece s hc hsc hok
    rw [process_c_semi_form _ _ hc hsc] at hok
    obtain ⟨cb, db, jb, h1, h2, h3, hs⟩ := _convert_c_success_shape _ _ _ _ _ hok
    refine ⟨cb, db, jb, h1, h2, h3, hs, ⟨'1' :: (cb.data ++ (db.data ++ jb.data)), ?_⟩⟩
    rw [hs]
    simp only [String.data_append, List.append_assoc]
    rfl

/-- Witness for C9: the `dest=comp` line `D=A` and the `comp;jmp` line
`D;JGT` under the mnemonic map. -/
theorem c9_implied_null_fields_witness :
    (∃ cbits dbits jbits,
       assocLookup c_instruction_map.comp ((splitOnChar "D=A" '=').getD 1 "")
         = some cbits ∧
       assocLookup c_instruction_map.dest ((splitOnChar "D=A" '=').getD 0 "")
         = some dbits ∧
       assocLookup c_instruction_map.jmp "null" = some jbits ∧
       "1110110000010000"
         = natToDec C_OP_CODE ++ natToDec C_FILLER ++ cbits ++ dbits ++ jbits ∧
       List.IsPrefix "11".data "1110110000010000".data) ∧
    (∃ cbits dbits jbits,
       assocLookup c_instruction_map.comp ((splitOnChar "D;JGT" ';').getD 0 "")
         = some cbits ∧
       assocLookup c_instruction_map.dest "null" = some dbits ∧
       assocLookup c_instruction_map.jmp ((splitOnChar "D;JGT" ';').getD 1 "")
         = some jbits ∧
       "1110001100000001"
         = natToDec C_OP_CODE ++ natToDec C_FILLER ++ cbits ++ dbits ++ jbits ∧
       List.IsPrefix "11".data "1110001100000001".data) :=
  ⟨c9_implied_null_fields.1 c_instruction_map "D=A" "1110110000010000" rfl rfl,
   c9_implied_null_fields.2 c_instruction_map "D;JGT" "1110001100000001" rfl rfl rfl⟩
